import Mathlib

/-!
# Team-Step-Challenge: verification of the Store and aggregation logic

Shallow embedding of `src/app.py` (class `StepTrackerDB` and the aggregation
helpers `create_team_leaderboard`, `get_team_statistics`, and the challenge
pace block of `main_app`).

Modelling conventions:
* Calendar dates are day numbers (`Int`); ISO date strings are modelled by
  `DStr`: `DStr.good d` is the canonical `isoformat` string of day `d`
  (ISO-8601 strings are in order-preserving bijection with dates), and
  `DStr.bad n` is a (nonempty) string on which `date.fromisoformat` raises
  `ValueError`.
* Python dicts (`self.data["users"]`, a user's `history`) are association
  lists in insertion order, accessed with `alookup` / updated with `aset`,
  which mirror dict read / in-place write.
* Step counts and goals are `Int` (Python ints; the code performs no sign
  validation, so negative values must be representable).
* `self.save_data()` is an immediate full-state write-through, so the
  persisted state is exactly the in-memory `StoreData` value a method
  returns; each method is modelled as a pure state transformer.
* A Python expression that raises an uncaught exception is modelled by
  `Option`/`Except` result types. Python float division is modelled exactly
  in `ℚ`.
-/

/-! ## Data model -/

/-- Model of a Python string used as a date key. `good d` is the canonical
ISO string of day number `d`; `bad n` is an (arbitrary, nonempty) string on
which `date.fromisoformat` raises `ValueError`. -/
inductive DStr where
  | good : Int → DStr
  | bad : Nat → DStr
deriving DecidableEq, Repr

/-- `date.fromisoformat`, with the raised `ValueError` as `none`. -/
def fromiso : DStr → Option Int
  | .good d => some d
  | .bad _ => none

/-- Python dict read `d[k]` / `d.get(k)`: first (unique) matching key. -/
def alookup {α β : Type} [DecidableEq α] : List (α × β) → α → Option β
  | [], _ => none
  | (k, v) :: t, a => if k = a then some v else alookup t a

/-- Python dict write `d[k] = v`: update in place, else append (dicts keep
insertion order). -/
def aset {α β : Type} [DecidableEq α] : List (α × β) → α → β → List (α × β)
  | [], a, b => [(a, b)]
  | (k, v) :: t, a, b => if k = a then (a, b) :: t else (k, v) :: aset t a b

/-- A user's `history` dict: ISO-date string to step count. -/
abbrev Hist := List (DStr × Int)

/-- Python `history.get(k, dflt)`. -/
def hget (h : Hist) (k : DStr) (dflt : Int) : Int := (alookup h k).getD dflt

/-- One entry of `self.data["users"]` (`app.py:55`). -/
structure UserData where
  daily_goal : Int
  history : Hist
deriving DecidableEq, Repr

/-- `self.data["challenge"]` after `get_challenge`'s `target_end_date`
backfill (`app.py:27`, `app.py:80`). -/
structure Challenge where
  active : Bool
  team_goal : Int
  start_date : Option DStr
  end_date : Option DStr
  target_end_date : Option DStr
deriving DecidableEq, Repr

/-- `self.data["weekly_goal"]` (`app.py:33`). -/
structure WeeklyGoal where
  goal : Int
  week_start : Option DStr
deriving DecidableEq, Repr

/-- The whole persisted data graph `self.data` (`app.py:25`). -/
structure StoreData where
  users : List (String × UserData)
  challenge : Challenge
  weekly_goal : WeeklyGoal
  admin_message : String
deriving DecidableEq, Repr

/-- Default challenge record from `load_data` (`app.py:27`). -/
def defaultChallenge : Challenge :=
  { active := false, team_goal := 0, start_date := none, end_date := none,
    target_end_date := none }

/-- Default weekly-goal record from `load_data` (`app.py:33`). -/
def defaultWeeklyGoal : WeeklyGoal := { goal := 0, week_start := none }

/-- The default (fresh-file) store of `load_data` (`app.py:24`). -/
def emptyStore : StoreData :=
  { users := [], challenge := defaultChallenge,
    weekly_goal := defaultWeeklyGoal, admin_message := "" }

/-! ## Store operations -/

/-- `StepTrackerDB.get_user_data` (`app.py:52`): returns the user's record,
creating it with defaults (goal 10000, empty history) and persisting when
absent. The returned pair is (possibly updated store, the record). -/
def get_user_data (s : StoreData) (username : String) : StoreData × UserData :=
  match alookup s.users username with
  | some ud => (s, ud)
  | none =>
    let ud : UserData := { daily_goal := 10000, history := [] }
    ({ s with users := aset s.users username ud }, ud)

/-- `StepTrackerDB.set_goal` (`app.py:62`): fetch-or-create the user, then
mutate `daily_goal` in place and persist. No validation is performed. -/
def set_goal (s : StoreData) (username : String) (goal : Int) : StoreData :=
  let p := get_user_data s username
  { p.1 with users := aset p.1.users username { p.2 with daily_goal := goal } }

/-- `StepTrackerDB.log_steps` (`app.py:68`): fetch-or-create the user, then
`history[log_date] = steps` and persist. No validation is performed. -/
def log_steps (s : StoreData) (username : String) (steps : Int) (log_date : DStr) :
    StoreData :=
  let p := get_user_data s username
  { p.1 with
    users := aset p.1.users username
      { p.2 with history := aset p.2.history log_date steps } }

/-- `StepTrackerDB.get_all_usernames` (`app.py:74`): dict keys in insertion
order. -/
def get_all_usernames (s : StoreData) : List String := s.users.map Prod.fst

/-- `StepTrackerDB.get_challenge` (`app.py:78`); the typed model always
carries `target_end_date`, so the backfill is the identity here. -/
def get_challenge (s : StoreData) : Challenge := s.challenge

/-- `StepTrackerDB.get_admin_message` (`app.py:130`). -/
def get_admin_message (s : StoreData) : String := s.admin_message

/-- Python `str.strip()` on ASCII whitespace: drop leading and trailing
whitespace characters. -/
def pyStrip (t : String) : String :=
  ⟨((t.data.dropWhile Char.isWhitespace).reverse.dropWhile Char.isWhitespace).reverse⟩

/-- `StepTrackerDB.set_admin_message` (`app.py:134`): stores
`(text or "").strip()`; `none` models Python `None`. -/
def set_admin_message (s : StoreData) (text : Option String) : StoreData :=
  { s with admin_message := pyStrip (text.getD "") }

/-- The current goal of a (possibly not yet created) user. -/
def goalOf (s : StoreData) (u : String) : Int :=
  ((alookup s.users u).map UserData.daily_goal).getD 10000

/-- The current history of a (possibly not yet created) user. -/
def histOf (s : StoreData) (u : String) : Hist :=
  ((alookup s.users u).map UserData.history).getD []

/-! ## Challenge progress (`get_team_steps_in_challenge`, `app.py:109`) -/

/-- The inner loop of `get_team_steps_in_challenge` over one user's history:
parse each key with `date.fromisoformat` inside `try/except ValueError`
(a failing key is skipped), add `steps` when `start_d <= d <= end_d`. -/
def challengeHistSum (h : Hist) (sd ed : Int) : Int :=
  h.foldl (fun acc kv =>
    match fromiso kv.1 with
    | some d => if sd ≤ d ∧ d ≤ ed then acc + kv.2 else acc
    | none => acc) 0

/-- `StepTrackerDB.get_team_steps_in_challenge` (`app.py:109`), relative to
the process date `today`. `end` is `end_date or today` (Python `or`: an
absent end date falls back to today's isoformat). `start_date` and the
resolved end are parsed *outside* the `try`, so a malformed value there
raises `ValueError`, modelled as `none`. With no `start_date` the result
is 0. -/
def get_team_steps_in_challenge (s : StoreData) (today : Int) : Option Int :=
  let c := get_challenge s
  match c.start_date with
  | none => some 0
  | some start =>
    match fromiso start, fromiso (c.end_date.getD (DStr.good today)) with
    | some sd, some ed =>
      some (s.users.foldl (fun acc p => acc + challengeHistSum p.2.history sd ed) 0)
    | some _, none => none
    | none, _ => none

/-- Spec-side range test, from the claim's words: the key parses as an ISO
date `d` with `startDate <= d <= end`. -/
def inChallengeRange (sd ed : Int) (k : DStr) : Bool :=
  match fromiso k with
  | some d => decide (sd ≤ d ∧ d ≤ ed)
  | none => false

/-- Spec-side total, from the claim's words: the sum over all users of the
step values of exactly the in-range history entries. -/
def challengeSpecSum (s : StoreData) (sd ed : Int) : Int :=
  (s.users.map (fun p =>
    ((p.2.history.filter (fun kv => inChallengeRange sd ed kv.1)).map
      (fun kv => kv.2)).sum)).sum

/-! ## Weekly leaderboard (`create_team_leaderboard`, `app.py:277`) -/

/-- One leaderboard entry: the `User`/`Steps`/`Goal` columns of the row dict
built at `app.py:302` (the `Progress` column is a display-formatted string
derived from these two numbers and does not affect sorting). -/
structure Row where
  user : String
  steps : Int
  goal : Int
deriving DecidableEq, Repr

/-- The week-period steps accumulation (`app.py:293`):
`for i in range(7): steps += history.get((today - i).isoformat(), 0)`. -/
def weekSteps (h : Hist) (today : Int) : Int :=
  (List.range 7).foldl
    (fun (a : Int) (i : Nat) => a + hget h (DStr.good (today - (i : Int))) 0) 0

/-- The row built for one user in the week period (`app.py:298`):
goal is `daily_goal * 7`. -/
def weekRow (today : Int) (p : String × UserData) : Row :=
  { user := p.1, steps := weekSteps p.2.history today, goal := p.2.daily_goal * 7 }

/-- Stable insertion into a steps-descending list: the new element goes in
front of the first element whose steps do not exceed it. Together with
`sortByStepsDesc` this is the unique stable descending sort, which is what
Python's `list.sort(key=..., reverse=True)` (`app.py:310`) guarantees. -/
def insertDesc (x : Row) : List Row → List Row
  | [] => [x]
  | y :: ys => if y.steps ≤ x.steps then x :: y :: ys else y :: insertDesc x ys

/-- Stable sort by `Steps` descending, modelling
`leaderboard_data.sort(key=lambda x: x['Steps'], reverse=True)`
(`app.py:310`; Python's sort is stable, also under `reverse=True`). -/
def sortByStepsDesc : List Row → List Row
  | [] => []
  | x :: xs => insertDesc x (sortByStepsDesc xs)

/-- `create_team_leaderboard(db, "week")` (`app.py:277`): one row per user
in `get_all_usernames()` order, then the stable descending sort. -/
def create_team_leaderboard_week (s : StoreData) (today : Int) : List Row :=
  sortByStepsDesc (s.users.map (weekRow today))

/-! ## `get_team_statistics`: the `active_this_week` counter (`app.py:437`) -/

/-- The list comprehension `[u for u in all_users if active_this_week]`
(`app.py:437`): the filter condition ignores `u` and tests the *counter's*
truthiness, so the list is all users or no users. -/
def activeFilterList (allUsers : List String) (acc : Int) : List String :=
  allUsers.filter (fun _ => decide (acc ≠ 0))

/-- The seven-day inner loop of `get_team_statistics` restricted to its
effect on `active_this_week` (`app.py:433`): for `i in range(7)`, increment
when `day_steps > 0 and username not in [u for u in all_users if
active_this_week]`. -/
def activeAfterUser (allUsers : List String) (username : String) (h : Hist)
    (today : Int) (acc : Int) : Int :=
  (List.range 7).foldl (fun (a : Int) (i : Nat) =>
    if 0 < hget h (DStr.good (today - (i : Int))) 0 ∧
        username ∉ activeFilterList allUsers a
    then a + 1 else a) acc

/-- The `active_this_week` value returned by `get_team_statistics`
(`app.py:409`, `app.py:437`): the per-user loops threaded over the counter,
starting from 0. -/
def active_this_week (s : StoreData) (today : Int) : Int :=
  s.users.foldl
    (fun a p => activeAfterUser (get_all_usernames s) p.1 p.2.history today a) 0

/-- Spec-side count, from the claim's words: the number of distinct users
with at least one `steps > 0` entry on some day in `today-6 .. today`. -/
def activeThisWeekSpec (s : StoreData) (today : Int) : Nat :=
  (s.users.filter (fun p =>
    (List.range 7).any (fun (i : Nat) =>
      decide (0 < hget p.2.history (DStr.good (today - (i : Int))) 0)))).length

/-! ## `get_team_statistics`: the per-user streak (`app.py:444`) -/

/-- The streak loop (`app.py:446`): starting at day offset `i` with `fuel`
iterations left, count while the predicate holds and stop at the first
failure (`break`). -/
def streakGo (p : Nat → Bool) : Nat → Nat → Nat
  | _, 0 => 0
  | i, fuel + 1 => if p i then streakGo p (i + 1) fuel + 1 else 0

/-- The loop condition at offset `i` (`app.py:448`):
`history.get((today - i).isoformat(), 0) >= daily_goal` — an absent day
contributes the default 0. -/
def streakP (h : Hist) (goal today : Int) (i : Nat) : Bool :=
  decide (goal ≤ hget h (DStr.good (today - (i : Int))) 0)

/-- The per-user current streak computed by `get_team_statistics`
(`app.py:444`): `for i in range(30)`, counting while the condition holds. -/
def streak (h : Hist) (goal today : Int) : Nat :=
  streakGo (streakP h goal today) 0 30

/-! ## Challenge pace without a target end date (`app.py:921`) -/

/-- The pace figures shown by `main_app` when the challenge is active with
no `target_end_date` (`app.py:921`). -/
structure PaceInfo where
  days_in : Int
  avg_per_day : ℚ
  days_to_goal : Option Int
deriving DecidableEq, Repr

/-- The pace block at `app.py:922`:
`days_in = (today - start_d).days or 1` (Python `or` replaces only a
*zero*, i.e. falsy, day count by 1); `avg_per_day = steps_in_challenge /
days_in` (float division, modelled exactly in `ℚ`);
`steps_remaining = max(0, goal - steps_in_challenge)`; and
`days_to_goal = int(steps_remaining / avg_per_day)` is shown exactly when
`avg_per_day > 0 and steps_remaining > 0` (`int` on the then-nonnegative
quotient is the floor). -/
def challenge_pace_no_target (progress team_goal start today : Int) : PaceInfo :=
  let d : Int := today - start
  let days_in : Int := if d = 0 then 1 else d
  let avg : ℚ := (progress : ℚ) / (days_in : ℚ)
  let remaining : Int := max 0 (team_goal - progress)
  { days_in := days_in, avg_per_day := avg,
    days_to_goal :=
      if 0 < avg ∧ 0 < remaining then some ⌊(remaining : ℚ) / avg⌋ else none }

/-! ## Backup restore (`load_from_backup`, `app.py:181`; restore flow,
`app.py:562`) -/

/-- The error surfaced by the restore flow when the uploaded document has
no `users` section (`app.py:569`). -/
inductive SnapError where
  | invalidSnapshot
deriving DecidableEq, Repr

/-- An uploaded backup document: any subset of the four top-level
sections. -/
structure BackupDoc where
  users : Option (List (String × UserData))
  challenge : Option Challenge
  weekly_goal : Option WeeklyGoal
  admin_message : Option String

/-- `StepTrackerDB.load_from_backup` (`app.py:181`): each section present
in the input replaces the stored one; absent sections are untouched. -/
def load_from_backup (s : StoreData) (d : BackupDoc) : StoreData :=
  let s1 := match d.users with
    | some u => { s with users := u }
    | none => s
  let s2 := match d.challenge with
    | some c => { s1 with challenge := c }
    | none => s1
  let s3 := match d.weekly_goal with
    | some w => { s2 with weekly_goal := w }
    | none => s2
  match d.admin_message with
  | some m => { s3 with admin_message := m }
  | none => s3

/-- The restore flow of `main_app` (`app.py:562`): `if "users" in restored`
call `load_from_backup`, else reject with the "missing 'users'" error and
leave the store untouched. -/
def importSnapshot (s : StoreData) (d : BackupDoc) : Except SnapError StoreData :=
  match d.users with
  | some _ => .ok (load_from_backup s d)
  | none => .error .invalidSnapshot

/-! ## Concrete states used by witnesses and counterexamples -/

/-- A store with one user at the default goal. -/
def oneUserStore : StoreData :=
  { emptyStore with users := [("a", { daily_goal := 10000, history := [] })] }

/-- Two users, both with a positive entry today (day 0). -/
def twoActiveStore : StoreData :=
  { users := [("A", { daily_goal := 10000, history := [(DStr.good 0, 1000)] }),
              ("B", { daily_goal := 10000, history := [(DStr.good 0, 1000)] })],
    challenge := defaultChallenge, weekly_goal := defaultWeeklyGoal,
    admin_message := "" }

/-- A store with an active challenge starting day 5 (no end date) and
history entries inside the range, one day outside each bound, and one
malformed date key. -/
def challengeStore : StoreData :=
  { users :=
      [("a", { daily_goal := 10000,
               history := [(DStr.good 5, 3), (DStr.good 4, 100),
                           (DStr.bad 0, 7), (DStr.good 10, 5)] }),
       ("b", { daily_goal := 8000,
               history := [(DStr.good 11, 50), (DStr.good 7, 4)] })],
    challenge := { active := true, team_goal := 1000,
                   start_date := some (DStr.good 5), end_date := none,
                   target_end_date := none },
    weekly_goal := defaultWeeklyGoal, admin_message := "" }

/-- A store whose challenge, weekly goal and admin message are all
non-default. -/
def richStore : StoreData :=
  { users := [("a", { daily_goal := 3000, history := [(DStr.good 1, 7)] })],
    challenge := { active := true, team_goal := 99,
                   start_date := some (DStr.good 0), end_date := none,
                   target_end_date := none },
    weekly_goal := { goal := 5, week_start := some (DStr.good 0) },
    admin_message := "keep moving" }

/-- A backup document containing only a `users` section. -/
def usersOnlyDoc : BackupDoc :=
  { users := some [("b", { daily_goal := 8000, history := [] })],
    challenge := none, weekly_goal := none, admin_message := none }

/-- A backup document with no `users` section (other sections present). -/
def noUsersDoc : BackupDoc :=
  { users := none, challenge := some defaultChallenge, weekly_goal := none,
    admin_message := some "x" }

/-- Goal 10000; steps today (day 10) and yesterday meet it, two days ago
does not: the streak example from the spec. -/
def streakExampleHist : Hist :=
  [(DStr.good 10, 10000), (DStr.good 9, 10000), (DStr.good 8, 5000)]

/-! ## Helper lemmas: association lists and store operations -/

theorem alookup_aset_self {α β : Type} [DecidableEq α]
    (l : List (α × β)) (a : α) (b : β) :
    alookup (aset l a b) a = some b := by
  induction l with
  | nil => simp [aset, alookup]
  | cons p t ih =>
    obtain ⟨k, v⟩ := p
    by_cases h : k = a
    · simp [aset, alookup, h]
    · simp [aset, alookup, h, ih]

theorem get_user_data_of_lookup {s : StoreData} {u : String} {ud : UserData}
    (h : alookup s.users u = some ud) : get_user_data s u = (s, ud) := by
  simp [get_user_data, h]

theorem set_goal_lookup (s : StoreData) (u : String) (g : Int) :
    alookup (set_goal s u g).users u
      = some { daily_goal := g, history := histOf s u } := by
  cases h : alookup s.users u with
  | none => simp [set_goal, get_user_data, h, histOf, alookup_aset_self]
  | some ud => simp [set_goal, get_user_data, h, histOf, alookup_aset_self]

theorem log_steps_lookup (s : StoreData) (u : String) (steps : Int) (d : DStr) :
    alookup (log_steps s u steps d).users u
      = some { daily_goal := goalOf s u, history := aset (histOf s u) d steps } := by
  cases h : alookup s.users u with
  | none => simp [log_steps, get_user_data, h, goalOf, histOf, alookup_aset_self]
  | some ud => simp [log_steps, get_user_data, h, goalOf, histOf, alookup_aset_self]

/-! ## Helper lemmas: folds as sums -/

theorem foldl_add_apply {α : Type} (f : α → Int) :
    ∀ (l : List α) (init : Int),
      l.foldl (fun a x => a + f x) init = init + (l.map f).sum := by
  intro l
  induction l with
  | nil => intro init; simp
  | cons x t ih =>
    intro init
    simp only [List.foldl_cons, List.map_cons, List.sum_cons, ih]
    ring

theorem challengeHistSum_aux (sd ed : Int) :
    ∀ (h : Hist) (init : Int),
      h.foldl (fun acc kv =>
        match fromiso kv.1 with
        | some d => if sd ≤ d ∧ d ≤ ed then acc + kv.2 else acc
        | none => acc) init
      = init + ((h.filter (fun kv => inChallengeRange sd ed kv.1)).map
          (fun kv => kv.2)).sum := by
  intro h
  induction h with
  | nil => intro init; simp
  | cons kv t ih =>
    intro init
    simp only [List.foldl_cons, List.filter_cons]
    cases hf : fromiso kv.1 with
    | none => simp [inChallengeRange, hf, ih]
    | some d =>
      by_cases hr : sd ≤ d ∧ d ≤ ed
      · simp [hf, hr.1, hr.2, inChallengeRange, ih]
        ring
      · simp [inChallengeRange, hf, hr, ih]

theorem challengeHistSum_eq (h : Hist) (sd ed : Int) :
    challengeHistSum h sd ed
      = ((h.filter (fun kv => inChallengeRange sd ed kv.1)).map
          (fun kv => kv.2)).sum := by
  simpa [challengeHistSum] using challengeHistSum_aux sd ed h 0

/-! ## Helper lemmas: the stable descending sort -/

theorem perm_insertDesc (x : Row) (l : List Row) :
    List.Perm (insertDesc x l) (x :: l) := by
  induction l with
  | nil => simp [insertDesc]
  | cons y ys ih =>
    by_cases h : y.steps ≤ x.steps
    · simp [insertDesc, h]
    · simp only [insertDesc, if_neg h]
      exact (ih.cons y).trans (List.Perm.swap x y ys)

theorem perm_sortByStepsDesc (l : List Row) :
    List.Perm (sortByStepsDesc l) l := by
  induction l with
  | nil => simp [sortByStepsDesc]
  | cons x xs ih =>
    exact (perm_insertDesc x (sortByStepsDesc xs)).trans (ih.cons x)

theorem mem_insertDesc {a x : Row} {l : List Row} :
    a ∈ insertDesc x l ↔ a = x ∨ a ∈ l := by
  rw [(perm_insertDesc x l).mem_iff, List.mem_cons]

theorem pairwise_insertDesc (x : Row) (l : List Row)
    (hl : l.Pairwise (fun a b => b.steps ≤ a.steps)) :
    (insertDesc x l).Pairwise (fun a b => b.steps ≤ a.steps) := by
  induction l with
  | nil => simp [insertDesc]
  | cons y ys ih =>
    rcases List.pairwise_cons.mp hl with ⟨hy, hys⟩
    by_cases h : y.steps ≤ x.steps
    · simp only [insertDesc, if_pos h]
      refine List.Pairwise.cons ?_ hl
      intro z hz
      rcases List.mem_cons.mp hz with rfl | hz'
      · exact h
      · exact le_trans (hy z hz') h
    · simp only [insertDesc, if_neg h]
      refine List.Pairwise.cons ?_ (ih hys)
      intro z hz
      rcases mem_insertDesc.mp hz with rfl | hz'
      · exact le_of_not_le h
      · exact hy z hz'

theorem pairwise_sortByStepsDesc (l : List Row) :
    (sortByStepsDesc l).Pairwise (fun a b => b.steps ≤ a.steps) := by
  induction l with
  | nil => simp [sortByStepsDesc]
  | cons x xs ih => exact pairwise_insertDesc x (sortByStepsDesc xs) ih

theorem filter_insertDesc (v : Int) (x : Row) (l : List Row) :
    (insertDesc x l).filter (fun r => decide (r.steps = v))
      = if x.steps = v then x :: l.filter (fun r => decide (r.steps = v))
        else l.filter (fun r => decide (r.steps = v)) := by
  induction l with
  | nil =>
    by_cases hx : x.steps = v <;> simp [insertDesc, hx]
  | cons y ys ih =>
    by_cases h : y.steps ≤ x.steps
    · simp only [insertDesc, if_pos h]
      by_cases hx : x.steps = v <;> simp [List.filter_cons, hx]
    · simp only [insertDesc, if_neg h]
      by_cases hx : x.steps = v
      · have hyv : ¬ y.steps = v := by
          intro hy
          exact h (le_of_eq (hy.trans hx.symm))
        simp [List.filter_cons, hyv, hx, ih]
      · by_cases hy : y.steps = v <;> simp [List.filter_cons, hy, hx, ih]

theorem filter_sortByStepsDesc (v : Int) (l : List Row) :
    (sortByStepsDesc l).filter (fun r => decide (r.steps = v))
      = l.filter (fun r => decide (r.steps = v)) := by
  induction l with
  | nil => simp [sortByStepsDesc]
  | cons x xs ih =>
    by_cases hx : x.steps = v <;>
      simp [sortByStepsDesc, filter_insertDesc, hx, ih, List.filter_cons]

/-! ## Helper lemmas: the streak loop -/

theorem streakGo_le (p : Nat → Bool) :
    ∀ (fuel i : Nat), streakGo p i fuel ≤ fuel := by
  intro fuel
  induction fuel with
  | zero => intro i; simp [streakGo]
  | succ f ih =>
    intro i
    by_cases h : p i
    · simp only [streakGo, if_pos h]
      exact Nat.succ_le_succ (ih (i + 1))
    · simp [streakGo, h]

theorem streakGo_prop (p : Nat → Bool) :
    ∀ (fuel i j : Nat), j < streakGo p i fuel → p (i + j) = true := by
  intro fuel
  induction fuel with
  | zero => intro i j hj; simp [streakGo] at hj
  | succ f ih =>
    intro i j hj
    by_cases h : p i
    · simp only [streakGo, if_pos h] at hj
      cases j with
      | zero => simpa using h
      | succ j' =>
        have hj' : j' < streakGo p (i + 1) f := by omega
        have := ih (i + 1) j' hj'
        simpa [show i + (j' + 1) = i + 1 + j' by omega] using this
    · simp [streakGo, h] at hj

theorem streakGo_maximal (p : Nat → Bool) :
    ∀ (fuel i m : Nat), m ≤ fuel → (∀ j, j < m → p (i + j) = true) →
      m ≤ streakGo p i fuel := by
  intro fuel
  induction fuel with
  | zero => intro i m hm _; omega
  | succ f ih =>
    intro i m hm hall
    cases m with
    | zero => exact Nat.zero_le _
    | succ m' =>
      have hpi : p i = true := by simpa using hall 0 (Nat.succ_pos m')
      have hrest : m' ≤ streakGo p (i + 1) f := by
        refine ih (i + 1) m' (by omega) (fun j hj => ?_)
        simpa [show i + 1 + j = i + (j + 1) by omega] using hall (j + 1) (by omega)
      simp only [streakGo, if_pos hpi]
      omega

theorem streakP_iff {goal : Int} (hg : 0 < goal) (h : Hist) (today : Int) (i : Nat) :
    streakP h goal today i = true ↔
      ∃ v, alookup h (DStr.good (today - (i : Int))) = some v ∧ goal ≤ v := by
  unfold streakP hget
  cases hv : alookup h (DStr.good (today - (i : Int))) with
  | none => simpa using by omega
  | some v => simp

/-! ## C1 -/

/-- C1: REFUTED (code bug, flagged by the spec itself). The claim says
`active_this_week` equals the number of distinct users with a positive day
in the 7-day trailing window. On the store `twoActiveStore`, where both
users "A" and "B" logged 1000 steps today, that number is 2, but the code
computes 1: the comparison `username not in [u for u in all_users if
active_this_week]` (`app.py:437`) tests the counter's truthiness, so the
counter can only ever move from 0 to 1. -/
theorem active_this_week_undercounts :
    active_this_week twoActiveStore 0 = 1 ∧
    activeThisWeekSpec twoActiveStore 0 = 2 := by
  constructor
  · decide
  · decide

/-! ## C2 -/

/-- C2 counterexample: `set_goal` (`app.py:62`) does not reject a
non-positive goal. Calling it with goal 0 on a store whose user "a" has
goal 10000 persists `daily_goal = 0` and changes the stored state, contrary
to the claimed `InvalidGoal` rejection with the state left unchanged. -/
theorem set_goal_accepts_nonpositive_cex :
    alookup (set_goal oneUserStore "a" 0).users "a"
      = some { daily_goal := 0, history := [] } ∧
    alookup oneUserStore.users "a" = some { daily_goal := 10000, history := [] } ∧
    set_goal oneUserStore "a" 0 ≠ oneUserStore := by
  refine ⟨by decide, by decide, by decide⟩

/-- C2 (amended): `set_goal` performs no validation. For every goal —
including `goal ≤ 0` — it persists the new `daily_goal` immediately,
leaving the user's history unchanged. -/
theorem set_goal_always_persists (s : StoreData) (u : String) (g : Int) :
    alookup (set_goal s u g).users u
      = some { daily_goal := g, history := histOf s u } :=
  set_goal_lookup s u g

/-! ## C3 -/

/-- C3 counterexample: `log_steps` (`app.py:68`) does not reject negative
steps. Logging -5 steps on a fresh store creates the user and persists the
entry `-5`, contrary to the claimed `InvalidSteps` rejection with the state
left unchanged. -/
theorem log_steps_accepts_negative_cex :
    alookup (log_steps emptyStore "a" (-5) (DStr.good 0)).users "a"
      = some { daily_goal := 10000, history := [(DStr.good 0, -5)] } ∧
    alookup emptyStore.users "a" = none ∧
    log_steps emptyStore "a" (-5) (DStr.good 0) ≠ emptyStore := by
  refine ⟨by decide, by decide, by decide⟩

/-- C3 (amended): `log_steps` performs no validation. For every steps value
— including negative ones — it stores `steps` as the history entry for that
date (overwriting any existing entry) and persists immediately. -/
theorem log_steps_always_persists (s : StoreData) (u : String) (steps : Int)
    (d : DStr) :
    alookup (log_steps s u steps d).users u
      = some { daily_goal := goalOf s u, history := aset (histOf s u) d steps } ∧
    alookup (aset (histOf s u) d steps) d = some steps :=
  ⟨log_steps_lookup s u steps d, alookup_aset_self _ _ _⟩

/-! ## C4 -/

/-- C4: for every store, username, date and `steps ≥ 0`, after `log_steps`
the user's history at that date reads back exactly `steps`; logging a
second value for the same date afterwards reads back the second value
(overwrite, not accumulation). -/
theorem log_steps_readback (s : StoreData) (u : String) (d : DStr) (steps : Int)
    (hsteps : 0 ≤ steps) :
    alookup ((get_user_data (log_steps s u steps d) u).2.history) d = some steps ∧
    ∀ steps2 : Int, 0 ≤ steps2 →
      alookup ((get_user_data (log_steps (log_steps s u steps d) u steps2 d)
        u).2.history) d = some steps2 := by
  constructor
  · rw [get_user_data_of_lookup (log_steps_lookup s u steps d)]
    exact alookup_aset_self _ _ _
  · intro steps2 _
    rw [get_user_data_of_lookup (log_steps_lookup _ u steps2 d)]
    exact alookup_aset_self _ _ _

/-- C4 witness: logging 5 then 7 steps for user "a" on day 0 of a fresh
store reads back 5, then 7. -/
theorem log_steps_readback_witness :
    (0 : Int) ≤ 5 ∧
    alookup ((get_user_data (log_steps emptyStore "a" 5 (DStr.good 0))
      "a").2.history) (DStr.good 0) = some 5 ∧
    alookup ((get_user_data (log_steps (log_steps emptyStore "a" 5 (DStr.good 0))
      "a" 7 (DStr.good 0)) "a").2.history) (DStr.good 0) = some 7 :=
  ⟨by decide,
   (log_steps_readback emptyStore "a" (DStr.good 0) 5 (by decide)).1,
   (log_steps_readback emptyStore "a" (DStr.good 0) 5 (by decide)).2 7 (by decide)⟩

/-! ## C5 -/

/-- C5: the restore flow replaces each of the four top-level sections
independently — a section present in the input replaces the stored one and
an absent section is left untouched — and a document with no `users`
section is rejected with the invalid-snapshot error, leaving the store
unchanged (the `Except.error` branch returns the input state untouched). -/
theorem importSnapshot_correct (s : StoreData) (d : BackupDoc) :
    (∀ u, d.users = some u →
      importSnapshot s d = .ok
        { users := u, challenge := d.challenge.getD s.challenge,
          weekly_goal := d.weekly_goal.getD s.weekly_goal,
          admin_message := d.admin_message.getD s.admin_message }) ∧
    (d.users = none → importSnapshot s d = .error .invalidSnapshot) := by
  obtain ⟨du, dc, dw, dm⟩ := d
  constructor
  · intro u hu
    simp only at hu
    subst hu
    cases dc <;> cases dw <;> cases dm <;> rfl
  · intro hu
    simp only at hu
    subst hu
    rfl

/-- C5 witness: restoring a users-only document into a store with
non-default challenge/weekly-goal/admin-message replaces only `users`;
restoring a document lacking `users` is rejected. -/
theorem importSnapshot_correct_witness :
    importSnapshot richStore usersOnlyDoc = .ok
      { users := [("b", { daily_goal := 8000, history := [] })],
        challenge := richStore.challenge,
        weekly_goal := richStore.weekly_goal,
        admin_message := richStore.admin_message } ∧
    importSnapshot richStore noUsersDoc = .error .invalidSnapshot :=
  ⟨(importSnapshot_correct richStore usersOnlyDoc).1
      [("b", { daily_goal := 8000, history := [] })] rfl,
   (importSnapshot_correct richStore noUsersDoc).2 rfl⟩

/-! ## C6 -/

/-- C6: when the challenge has a start date parsing to `sd` and the
resolved end (`end_date or today`) parses to `ed`,
`get_team_steps_in_challenge` succeeds and returns the sum over all users
of exactly the history entries whose keys parse as ISO dates `d` with
`sd ≤ d ≤ ed` (inclusive at both bounds); out-of-range and unparsable keys
contribute nothing and cause no failure. -/
theorem get_team_steps_in_challenge_correct (s : StoreData) (today sd ed : Int)
    (stS : DStr) (h1 : s.challenge.start_date = some stS)
    (h2 : fromiso stS = some sd)
    (h3 : fromiso (s.challenge.end_date.getD (DStr.good today)) = some ed) :
    get_team_steps_in_challenge s today = some (challengeSpecSum s sd ed) := by
  simp only [get_team_steps_in_challenge, get_challenge, h1, h2, h3]
  rw [foldl_add_apply (fun p => challengeHistSum p.2.history sd ed) s.users 0]
  simp [challengeSpecSum, challengeHistSum_eq]

/-- C6 witness: on `challengeStore` (start day 5, no end date, today 10)
the sum counts the entries on days 5, 7 and 10, ignores the entries on
days 4 and 11 (one day outside each bound) and the malformed key, and
returns 12. -/
theorem get_team_steps_in_challenge_correct_witness :
    get_team_steps_in_challenge challengeStore 10
      = some (challengeSpecSum challengeStore 5 10) ∧
    get_team_steps_in_challenge challengeStore 10 = some 12 :=
  ⟨get_team_steps_in_challenge_correct challengeStore 10 5 10 (DStr.good 5)
      rfl rfl rfl,
   by decide⟩

/-! ## C7 -/

/-- C7 counterexample: the claim's characterization — "the streak is the
largest n ≤ 30 such that each of the n most recent days **exists** in the
history and meets the goal" — fails for a user whose `daily_goal` is not
positive (reachable, e.g., via backup restore or `set_goal`, which do not
validate). With goal 0 and an empty history the code counts 30 (absent
days default to 0 and `0 >= 0` holds, `app.py:448`), yet no day exists in
the history at all. -/
theorem streak_zero_goal_cex :
    streak [] 0 0 = 30 ∧
    ¬ (∀ i : Nat, i < streak ([] : Hist) 0 0 →
        ∃ v, alookup ([] : Hist) (DStr.good ((0 : Int) - (i : Int))) = some v ∧
          (0 : Int) ≤ v) := by
  constructor
  · decide
  · intro hall
    rcases hall 0 (by decide) with ⟨v, hv, _⟩
    simp [alookup] at hv

/-- C7 (amended): for a user whose `daily_goal` is positive — the data
model's invariant, and the only case where the claim's "exists" reading
matches the code's `.get(date, 0)` default — the streak equals the largest
`n ≤ 30` such that for every `i < n` the history has an entry at
`today - i` with value at least the goal: every counted day has such an
entry, the streak never exceeds 30, and any `n ≤ 30` all of whose days
have such entries is at most the streak. -/
theorem streak_correct (h : Hist) (goal today : Int) (hg : 0 < goal) :
    (∀ i : Nat, i < streak h goal today →
      ∃ v, alookup h (DStr.good (today - (i : Int))) = some v ∧ goal ≤ v) ∧
    streak h goal today ≤ 30 ∧
    (∀ n : Nat, n ≤ 30 →
      (∀ i : Nat, i < n →
        ∃ v, alookup h (DStr.good (today - (i : Int))) = some v ∧ goal ≤ v) →
      n ≤ streak h goal today) := by
  refine ⟨?_, streakGo_le _ 30 0, ?_⟩
  · intro i hi
    have hp := streakGo_prop (streakP h goal today) 30 0 i hi
    rw [Nat.zero_add] at hp
    exact (streakP_iff hg h today i).mp hp
  · intro n hn hall
    refine streakGo_maximal (streakP h goal today) 30 0 n hn (fun j hj => ?_)
    rw [Nat.zero_add]
    exact (streakP_iff hg h today j).mpr (hall j hj)

/-- C7 witness: the spec's example — goal 10000, steps 10000 today (day 10)
and yesterday, 5000 two days ago — yields streak 2, and the
characterization holds there. -/
theorem streak_correct_witness :
    streak streakExampleHist 10000 10 = 2 ∧
    ((∀ i : Nat, i < streak streakExampleHist 10000 10 →
      ∃ v, alookup streakExampleHist (DStr.good ((10 : Int) - (i : Int)))
        = some v ∧ (10000 : Int) ≤ v) ∧
    streak streakExampleHist 10000 10 ≤ 30 ∧
    (∀ n : Nat, n ≤ 30 →
      (∀ i : Nat, i < n →
        ∃ v, alookup streakExampleHist (DStr.good ((10 : Int) - (i : Int)))
          = some v ∧ (10000 : Int) ≤ v) →
      n ≤ streak streakExampleHist 10000 10)) :=
  ⟨by decide, streak_correct streakExampleHist 10000 10 (by decide)⟩

/-! ## C8 -/

/-- C8: the week leaderboard is a permutation of one row per known user —
the row built in `get_all_usernames()` order with `steps` the 7-day
trailing sum (absent days 0) and `goal = daily_goal * 7` — sorted by steps
descending, and for every steps value the rows carrying it appear in the
same relative order as in the username order (stability). -/
theorem create_team_leaderboard_week_correct (s : StoreData) (today : Int) :
    List.Perm (create_team_leaderboard_week s today) (s.users.map (weekRow today)) ∧
    (create_team_leaderboard_week s today).Pairwise
      (fun a b => b.steps ≤ a.steps) ∧
    (∀ v : Int,
      (create_team_leaderboard_week s today).filter (fun r => decide (r.steps = v))
        = (s.users.map (weekRow today)).filter (fun r => decide (r.steps = v))) ∧
    (∀ h : Hist, weekSteps h today
        = ((List.range 7).map
            (fun (i : Nat) => hget h (DStr.good (today - (i : Int))) 0)).sum) := by
  refine ⟨perm_sortByStepsDesc _, pairwise_sortByStepsDesc _,
    fun v => filter_sortByStepsDesc v _, fun h => ?_⟩
  rw [weekSteps,
    foldl_add_apply (fun (i : Nat) => hget h (DStr.good (today - (i : Int))) 0)
      (List.range 7) 0]
  simp

/-! ## C9 -/

/-- C9 counterexample: the claim says `days_in = max(today - startDate, 1)`
so that `days_in ≥ 1` even for a future start date. The code computes
`(today - start_d).days or 1` (`app.py:922`), which only replaces a *zero*
day count: with start day 5 and today day 3 it yields -2, not
`max(-2, 1) = 1`. -/
theorem challenge_pace_future_start_cex :
    (challenge_pace_no_target 0 100000 5 3).days_in = -2 ∧
    max ((3 : Int) - 5) 1 = 1 ∧
    (challenge_pace_no_target 0 100000 5 3).days_in < 1 := by
  refine ⟨by decide, by decide, by decide⟩

/-- C9 (amended): when the challenge start date is not in the future
(`start ≤ today`), `days_in` equals `max(today - start, 1) ≥ 1` as claimed,
`avg_per_day = progress / days_in` (exact rational division), and whenever
`avg_per_day > 0` and `remaining = max(0, teamGoal - progress) > 0` the
shown figure is `days_to_goal = ⌊remaining / avg_per_day⌋`. For a future
start date `days_in` is instead the negative day count (see the
counterexample). -/
theorem challenge_pace_correct (progress team_goal start today : Int)
    (h : start ≤ today) :
    (challenge_pace_no_target progress team_goal start today).days_in
        = max (today - start) 1 ∧
    1 ≤ (challenge_pace_no_target progress team_goal start today).days_in ∧
    (challenge_pace_no_target progress team_goal start today).avg_per_day
        = (progress : ℚ) / ((max (today - start) 1 : Int) : ℚ) ∧
    (0 < (challenge_pace_no_target progress team_goal start today).avg_per_day →
      0 < max 0 (team_goal - progress) →
      (challenge_pace_no_target progress team_goal start today).days_to_goal
        = some ⌊((max 0 (team_goal - progress) : Int) : ℚ) /
            (challenge_pace_no_target progress team_goal start today).avg_per_day⌋) := by
  have hd : (if today - start = 0 then (1 : Int) else today - start)
      = max (today - start) 1 := by
    by_cases h0 : today - start = 0
    · simp [h0]
    · rw [if_neg h0]
      have h1 : 1 ≤ today - start := by omega
      omega
  refine ⟨?_, ?_, ?_, ?_⟩
  · simp only [challenge_pace_no_target]
    exact hd
  · simp only [challenge_pace_no_target]
    rw [hd]
    exact le_max_right _ _
  · simp only [challenge_pace_no_target]
    rw [hd]
  · intro h1 h2
    simp only [challenge_pace_no_target] at h1 ⊢
    rw [if_pos ⟨h1, h2⟩]

/-- C9 witness: progress 300 after 3 days (start day 0, today day 3)
toward goal 1000 gives `days_in = 3 = max(3, 1)`, average 100 per day,
and `days_to_goal = ⌊700 / 100⌋ = 7`. -/
theorem challenge_pace_correct_witness :
    ((0 : Int) ≤ 3) ∧
    (challenge_pace_no_target 300 1000 0 3).days_in = max ((3 : Int) - 0) 1 ∧
    (challenge_pace_no_target 300 1000 0 3).days_to_goal = some 7 := by
  have H := challenge_pace_correct 300 1000 0 3 (by norm_num)
  refine ⟨by norm_num, H.1, ?_⟩
  have havg : (challenge_pace_no_target 300 1000 0 3).avg_per_day = 100 := by
    rw [H.2.2.1]
    norm_num
  have hrem : (0 : Int) < max 0 (1000 - 300) := by omega
  rw [H.2.2.2 (by rw [havg]; norm_num) hrem, havg]
  have h700 : (max 0 (1000 - 300) : Int) = 700 := by omega
  rw [h700]
  norm_num

/-! ## C10 -/

/-- C10: `set_admin_message` stores the input with leading and trailing
whitespace stripped (the empty string for Python `None`), and
`get_admin_message` returns exactly that stripped value; an input with
surrounding whitespace is not stored verbatim. -/
theorem admin_message_roundtrip (s : StoreData) (t : Option String) :
    get_admin_message (set_admin_message s t) = pyStrip (t.getD "") ∧
    (set_admin_message s t).admin_message = pyStrip (t.getD "") ∧
    get_admin_message (set_admin_message s none) = "" ∧
    (set_admin_message s (some "  hi  ")).admin_message = "hi" := by
  refine ⟨rfl, rfl, ?_, ?_⟩
  · show pyStrip ((none : Option String).getD "") = ""
    rfl
  · show pyStrip ((some "  hi  ").getD "") = "hi"
    rfl
